import Mathlib

/-!
Verification of the `base_agent` package: a shallow embedding of
`src/base_agent/agent.py` (the Claude/MCP tool-use loop `ask_stream`) and
`src/base_agent/openai_adapter.py` (the OpenAI-style SSE encoders), together
with theorems settling the specified behavioural properties.

Conventions:
* JSON-serializable Python values are modelled by `PyVal`; Python dicts are
  association lists with first-match lookup and `\x7b**a, **b\x7d`-style merge
  semantics (`dictUpdate`).
* The provider's streaming transport is modelled as a script: each round is a
  list of typed events plus the final aggregated message.  Duck-typed
  attribute probing (`getattr`/`hasattr`) is modelled with `Option` fields;
  `Option (Option String)` distinguishes an absent attribute from an attribute
  holding `None`.
* `json.dumps` of a tool-use block's input dict is carried as a pre-rendered
  string field of the block; `json.loads` of tool output is an environment
  parameter returning `Option ParsedJson` (`none` = the parse raised).
* Python's `str.strip()` is modelled by `pyStrip`.
-/

namespace BaseAgent

/-! ## Python value model (openai_adapter.py) -/

/-- JSON-serializable Python values: strings, ints, bools, `None`, lists and
dicts (association lists, insertion ordered). -/
inductive PyVal where
  | str (s : String)
  | int (n : Int)
  | bool (b : Bool)
  | none
  | list (xs : List PyVal)
  | dict (fields : List (String × PyVal))
deriving Repr

/-- `d.get(k)`: first-match lookup in an association-list dict. -/
def pyLookup (fields : List (String × PyVal)) (k : String) : Option PyVal :=
  match fields.find? (fun kv => kv.1 == k) with
  | some kv => some kv.2
  | Option.none => Option.none

/-- Python dict merge `\x7b**a, **b\x7d`: keys of `a` in order with values
overridden by `b` where present, followed by the keys of `b` not in `a`. -/
def dictUpdate (a b : List (String × PyVal)) : List (String × PyVal) :=
  a.map (fun kv => (kv.1, (pyLookup b kv.1).getD kv.2)) ++
    b.filter (fun kv => (pyLookup a kv.1).isNone)

/-- Model of JSON string escaping: quote and backslash get a backslash. -/
def escapeChars (l : List Char) : List Char :=
  l.foldr (fun c acc => if c = '"' || c = '\\' then '\\' :: c :: acc else c :: acc) []

mutual

/-- Model of `json.dumps` on `PyVal`. -/
def pyDumps : PyVal → String
  | .str s => "\"" ++ String.mk (escapeChars s.data) ++ "\""
  | .int n => toString n
  | .bool b => if b then "true" else "false"
  | .none => "null"
  | .list xs => "[" ++ String.intercalate ", " (pyDumpsList xs) ++ "]"
  | .dict fs => "\x7b" ++ String.intercalate ", " (pyDumpsFields fs) ++ "\x7d"

def pyDumpsList : List PyVal → List String
  | [] => []
  | x :: xs => pyDumps x :: pyDumpsList xs

def pyDumpsFields : List (String × PyVal) → List String
  | [] => []
  | kv :: fs => ("\"" ++ String.mk (escapeChars kv.1.data) ++ "\": " ++ pyDumps kv.2) :: pyDumpsFields fs

end

/-- `_base_payload(model)`: the shared envelope, generated once per request
(`uuidHex` and `created` stand for the fresh uuid and timestamp). -/
def basePayload (uuidHex : String) (created : Int) (model : String) : List (String × PyVal) :=
  [("id", .str ("chatcmpl-" ++ uuidHex)),
   ("object", .str "chat.completion"),
   ("created", .int created),
   ("model", .str model)]

/-- The loop body of `async_sse_chat_completions`: the payload dict built for
one source chunk.  A dict chunk already holding `"choices"` is merged onto the
envelope and forwarded; otherwise the chunk's `delta`/`finish_reason` (or, for
a non-dict chunk, `\x7b"content": chunk\x7d`) is wrapped under `choices[0]`. -/
def chunkPayload (base : List (String × PyVal)) (chunk : PyVal) : List (String × PyVal) :=
  match chunk with
  | .dict d =>
    if (pyLookup d "choices").isSome then
      dictUpdate base d
    else
      let delta : PyVal :=
        match pyLookup d "delta" with
        | some PyVal.none => .dict []
        | some v => v
        | Option.none => .dict []
      let fr : PyVal :=
        match pyLookup d "finish_reason" with
        | some v => v
        | Option.none => PyVal.none
      dictUpdate base
        [("object", .str "chat.completion.chunk"),
         ("choices", .list [.dict [("index", .int 0), ("delta", delta), ("finish_reason", fr)]])]
  | c =>
      dictUpdate base
        [("object", .str "chat.completion.chunk"),
         ("choices", .list [.dict
            [("index", .int 0), ("delta", .dict [("content", c)]), ("finish_reason", PyVal.none)]])]

/-- `async_sse_chat_completions`: one SSE frame per source chunk, then the
unconditional terminal `[DONE]` frame. -/
def async_sse_chat_completions (base : List (String × PyVal)) (chunks : List PyVal) : List String :=
  chunks.map (fun c => "data: " ++ pyDumps (.dict (chunkPayload base c)) ++ "\n\n") ++
    ["data: [DONE]\n\n"]

/-! ## Model of Python `str.strip()` -/

/-- The characters `str.strip()` removes. -/
def isPyWhitespace (c : Char) : Bool :=
  c == ' ' || c == '\t' || c == '\n' || c == '\r' || c == '\x0b' || c == '\x0c'

/-- Strip `isPyWhitespace` characters from both ends of a char list. -/
def stripList (l : List Char) : List Char :=
  ((l.dropWhile isPyWhitespace).reverse.dropWhile isPyWhitespace).reverse

/-- Model of Python `str.strip()`. -/
def pyStrip (s : String) : String :=
  String.mk (stripList s.data)

/-! ## agent.py data model -/

/-- One yielded item of `ask_stream` (the normalized delta dicts, the raw
tool-log strings of line 195, and the collected-mode final string). -/
inductive Chunk where
  /-- `\x7b"delta": \x7b"content": s\x7d\x7d` -/
  | deltaContent (s : String)
  /-- `\x7b"delta": \x7b"thinking": t, "content": c\x7d\x7d` -/
  | deltaThinking (t : String) (c : String)
  /-- `\x7b"delta": \x7b"tool_calls": [\x7bid, "function", name, args\x7d]\x7d\x7d` -/
  | deltaToolCalls (id : String) (name : String) (args : String)
  /-- `\x7b"delta": \x7b"role": "tool", "tool_call_id": id, "content": c\x7d\x7d` -/
  | deltaToolResult (toolCallId : String) (c : String)
  /-- a bare string yielded for a tool-call log line -/
  | rawText (s : String)
  /-- `\x7b"delta": \x7b\x7d, "finish_reason": "stop"\x7d` -/
  | finishStop
  /-- the single collected-mode final answer string -/
  | finalText (s : String)
deriving Repr, DecidableEq

/-- The value under the `"content"` key of a yielded delta dict, when present
(`rawText` is not a dict; `finishStop`'s delta is empty; a `tool_calls` delta
has no `"content"` key; `finalText` is the collected-mode bare string). -/
def Chunk.contentField : Chunk → Option String
  | .deltaContent s => some s
  | .deltaThinking _ c => some c
  | .deltaToolResult _ c => some c
  | _ => Option.none

/-- The `event.delta` object of a `content_block_delta` event.
`text` models `getattr(delta, "text", None)` (absent and `None` coincide);
`thinkingAttr` distinguishes an absent `thinking` attribute (`Option.none`,
so `hasattr` is false) from a present one holding `None` or a string;
`dtype` models `getattr(delta, "type", None)`. -/
structure DeltaPayload where
  text : Option String
  thinkingAttr : Option (Option String)
  dtype : Option String
deriving Repr, DecidableEq

/-- A finalized content block carried by a `content_block_stop` event.
`argsJson` is `json.dumps(input or \x7b\x7d)` and `argsJsonIndent` is
`json.dumps(input or \x7b\x7d, indent=2)`, carried pre-rendered. -/
structure StopBlock where
  btype : Option String
  id : String
  name : String
  argsJson : String
  argsJsonIndent : String
deriving Repr, DecidableEq

/-- One provider stream event.  `blockStart` carries
`getattr(event.content_block, "type", None)`; `blockStop` carries the
finalized `event.content_block` (`Option.none` when it is `None`);
`otherEvent` covers every event type the loop ignores. -/
inductive PEvent where
  | blockStart (index : Nat) (btype : Option String)
  | blockDelta (index : Nat) (delta : DeltaPayload)
  | blockStop (index : Nat) (block : Option StopBlock)
  | otherEvent
deriving Repr, DecidableEq

/-- A content block of the provider's final aggregated message (only its
`type` and `text` attributes are read by the loop). -/
structure MsgBlock where
  btype : Option String
  text : Option String
deriving Repr, DecidableEq

/-- `ToolResultBlockParam(type="tool_result", tool_use_id, content)`. -/
structure ToolResultBlockParam where
  tool_use_id : String
  content : String
deriving Repr, DecidableEq

/-- The content of a conversation message: the caller's plain text, an
assistant message's final content blocks, or a batch of tool results. -/
inductive MsgContent where
  | text (s : String)
  | blocks (bs : List MsgBlock)
  | toolResults (rs : List ToolResultBlockParam)
deriving Repr, DecidableEq

/-- One conversation message `\x7brole, content\x7d`. -/
structure Message where
  role : String
  content : MsgContent
deriving Repr, DecidableEq

/-- The user message of line 235 carrying a round's batch of tool results. -/
def userToolMsg (rs : List ToolResultBlockParam) : Message :=
  { role := "user", content := MsgContent.toolResults rs }

/-- One provider round of the scripted interaction: the events the streaming
session emits, and the final aggregated message's content blocks returned by
`stream.get_final_message()`. -/
structure Round where
  events : List PEvent
  finalContent : List MsgBlock
deriving Repr, DecidableEq

/-- Result of `json.loads` on a tool output: a JSON string (a Python `str`),
or any non-string value carried with its `json.dumps` rendering. -/
inductive ParsedJson where
  | str (s : String)
  | other (dump : String)
deriving Repr, DecidableEq

/-- The ambient collaborators and flags of one `ask_stream` call:
`stream_mode`, `include_tool_logs`, the tool executor `call_tool` (keyed by
tool name and rendered arguments) and the `json.loads` behaviour. -/
structure Env where
  streamMode : Bool
  includeToolLogs : Bool
  callTool : String → String → String
  jsonLoads : String → Option ParsedJson

/-- The loop state threaded across rounds: the conversation plus the
`answer_parts` and `thinking_parts` accumulators. -/
structure AgentState where
  conversation : List Message
  answerParts : List String
  thinkingParts : List String
deriving Repr, DecidableEq

/-! ## agent.py: event demultiplexing (one round's stream loop) -/

/-- In-round accumulator: `block_types`, `tool_requests`, the global
`thinking_parts`, and the chunks yielded so far. -/
structure RoundAcc where
  blockTypes : List (Nat × Option String)
  toolRequests : List StopBlock
  thinkingParts : List String
  chunks : List Chunk
deriving Repr, DecidableEq

/-- `block_types[i] = v` (most recent binding first). -/
def btSet (bt : List (Nat × Option String)) (i : Nat) (v : Option String) :
    List (Nat × Option String) :=
  (i, v) :: bt

/-- `block_types.get(i)`; a missing key and a stored `None` both read as
`Option.none`, matching how the dict value is only ever compared to
`"thinking"`. -/
def btGet (bt : List (Nat × Option String)) (i : Nat) : Option String :=
  match bt.find? (fun e => e.1 == i) with
  | some e => e.2
  | Option.none => Option.none

/-- Lines 130-133: extract the delta's text payload, falling back to the
`thinking` attribute when the `text` attribute is missing or falsy. -/
def DeltaPayload.deltaText (d : DeltaPayload) : String :=
  let t := d.text.getD ""
  if t = "" then
    match d.thinkingAttr with
    | some o => o.getD ""
    | Option.none => ""
  else t

/-- Lines 136-140: a fragment is thinking when the block was declared
thinking, or the delta has a `thinking` attribute, or is a `thinking_delta`. -/
def isThinkingDelta (blockType : Option String) (d : DeltaPayload) : Bool :=
  blockType == some "thinking" || d.thinkingAttr.isSome ||
    d.dtype == some "thinking_delta"

/-- Lines 125-164: processing of one provider stream event. -/
def processEvent (env : Env) (acc : RoundAcc) (e : PEvent) : RoundAcc :=
  match e with
  | .blockStart i bt =>
      let bts := btSet acc.blockTypes i bt
      let startChunks :=
        if btGet bts i == some "thinking" && env.streamMode then
          [Chunk.deltaContent "**Thoughts:**\n"]
        else []
      { acc with blockTypes := bts, chunks := acc.chunks ++ startChunks }
  | .blockDelta i d =>
      let t := d.deltaText
      if t = "" then acc
      else if isThinkingDelta (btGet acc.blockTypes i) d then
        { acc with
            thinkingParts := acc.thinkingParts ++ [t],
            chunks := acc.chunks ++ (if env.streamMode then [Chunk.deltaThinking t t] else []) }
      else
        { acc with
            chunks := acc.chunks ++ (if env.streamMode then [Chunk.deltaContent t] else []) }
  | .blockStop i cb =>
      let stopChunks :=
        if env.streamMode then
          (if btGet acc.blockTypes i == some "thinking" then
            [Chunk.deltaContent "\n\n---\n\n"] else []) ++ [Chunk.deltaContent "\n"]
        else []
      match cb with
      | some b =>
          if b.btype == some "tool_use" then
            { acc with
                toolRequests := acc.toolRequests ++ [b],
                chunks := acc.chunks ++ stopChunks ++
                  (if env.streamMode then [Chunk.deltaToolCalls b.id b.name b.argsJson] else []) }
          else { acc with chunks := acc.chunks ++ stopChunks }
      | Option.none => { acc with chunks := acc.chunks ++ stopChunks }
  | .otherEvent => acc

/-- Lines 169-175: the final message's answer text blocks (truthy text, not
thinking). -/
def answerTexts (bs : List MsgBlock) : List String :=
  bs.filterMap (fun b =>
    match b.text with
    | some t => if t != "" && b.btype != some "thinking" then some t else Option.none
    | Option.none => Option.none)

/-- Lines 176-181: the final message's thinking text blocks. -/
def thinkingTexts (bs : List MsgBlock) : List String :=
  bs.filterMap (fun b =>
    match b.text with
    | some t => if t != "" && b.btype == some "thinking" then some t else Option.none
    | Option.none => Option.none)

/-- What one provider round produces: the yielded chunks, the finalized tool
requests, and the state after conversation/accumulator bookkeeping. -/
structure RoundResult where
  chunks : List Chunk
  toolRequests : List StopBlock
  state : AgentState
deriving Repr, DecidableEq

/-- Lines 122-181: one streaming session — fold the stream events, append the
assistant message with the final content blocks, extend the accumulators. -/
def processRound (env : Env) (st : AgentState) (r : Round) : RoundResult :=
  let acc := r.events.foldl (processEvent env)
    { blockTypes := [], toolRequests := [], thinkingParts := st.thinkingParts, chunks := [] }
  { chunks := acc.chunks,
    toolRequests := acc.toolRequests,
    state :=
      { conversation := st.conversation ++
          [{ role := "assistant", content := .blocks r.finalContent }],
        answerParts := st.answerParts ++ answerTexts r.finalContent,
        thinkingParts := acc.thinkingParts ++ thinkingTexts r.finalContent } }

/-! ## agent.py: tool round-trip (lines 186-235) -/

/-- Line 195's yielded log string (`json.dumps(input or \x7b\x7d)`). -/
def callLogStream (b : StopBlock) : String :=
  "\n\nCalling `" ++ b.name ++ "` with args:\n```json\n" ++ b.argsJson ++ "\n```"

/-- Line 198's `answer_parts` entry (`json.dumps(..., indent=2)`). -/
def callLogCollect (b : StopBlock) : String :=
  "\n\nCalling `" ++ b.name ++ "` with args:\n```json\n" ++ b.argsJsonIndent ++ "\n```"

/-- The `Result from ...` log body shared by lines 220 and 224. -/
def resultLog (name rendered : String) : String :=
  "\n\nResult from `" ++ name ++ "`:\n```json\n" ++ rendered ++ "\n```\n"

/-- Lines 204-215: parse the tool output for rendering; a failed parse keeps
the raw string, a parsed JSON string is a Python `str` and stays as decoded,
any other parsed value is re-dumped. -/
def renderedOutput (env : Env) (out : String) : String :=
  match env.jsonLoads out with
  | Option.none => out
  | some (.str s) => s
  | some (.other d) => d

/-- Line 230: the tool-result content, `tool_output or "No content returned
by tool."`. -/
def toolResultContent (out : String) : String :=
  if out = "" then "No content returned by tool." else out

/-- The `ToolResultBlockParam` built for one tool request. -/
def mkToolResult (env : Env) (b : StopBlock) : ToolResultBlockParam :=
  { tool_use_id := b.id, content := toolResultContent (env.callTool b.name b.argsJson) }

/-- Accumulator of the per-request tool loop. -/
structure ToolAcc where
  chunks : List Chunk
  results : List ToolResultBlockParam
  answerParts : List String
deriving Repr, DecidableEq

/-- Lines 187-232: handling of one tool request — optional call log (yield
and `answer_parts`), executor call, render-only parse, optional result log,
and the appended `ToolResultBlockParam`. -/
def processTool (env : Env) (acc : ToolAcc) (b : StopBlock) : ToolAcc :=
  let callChunks :=
    if env.streamMode && env.includeToolLogs then [Chunk.rawText (callLogStream b)] else []
  let ap1 :=
    if env.includeToolLogs then acc.answerParts ++ [callLogCollect b] else acc.answerParts
  let out := env.callTool b.name b.argsJson
  let resChunks :=
    if env.streamMode && out != "" && env.includeToolLogs then
      [Chunk.deltaToolResult b.id (resultLog b.name (renderedOutput env out))]
    else []
  let ap2 := if env.includeToolLogs then ap1 ++ [resultLog b.name out] else ap1
  { chunks := acc.chunks ++ callChunks ++ resChunks,
    results := acc.results ++ [mkToolResult env b],
    answerParts := ap2 }

/-- Lines 186-235: process a round's tool requests in finalization order and
append the single user message carrying the ordered batch of tool results. -/
def processTools (env : Env) (st : AgentState) (reqs : List StopBlock) :
    List Chunk × AgentState :=
  let acc := reqs.foldl (processTool env)
    { chunks := [], results := [], answerParts := st.answerParts }
  (acc.chunks,
   { conversation := st.conversation ++
       [{ role := "user", content := .toolResults acc.results }],
     answerParts := acc.answerParts,
     thinkingParts := st.thinkingParts })

/-! ## agent.py: finalization and the round loop -/

/-- Line 240: the `Thoughts`/`Answer` header prefixed when any thinking text
was captured. -/
def thoughtsHeader (thinkingParts : List String) : String :=
  "**Thoughts:**\n\n" ++ String.join thinkingParts ++ "\n\n---\n\n**Answer:**\n\n"

/-- Lines 238-243: the collected final answer — optional thoughts header,
then the non-empty answer parts, joined with blank lines and stripped. -/
def finalAnswer (st : AgentState) : String :=
  pyStrip (String.intercalate "\n\n"
    ((if st.thinkingParts.isEmpty then [] else [thoughtsHeader st.thinkingParts]) ++
      st.answerParts.filter (fun p => p != "")))

/-- Lines 244-247: the terminal emission — a finish marker in stream mode,
the single composite answer otherwise. -/
def finalizeChunks (env : Env) (st : AgentState) : List Chunk :=
  if env.streamMode then [Chunk.finishStop] else [Chunk.finalText (finalAnswer st)]

/-- Lines 103-247: the `while True` round loop, driven by a finite script of
provider rounds.  `Option.none` means the script was exhausted while the loop
still wanted another provider round (the loop itself has no bound). -/
def runLoop (env : Env) : List Round → AgentState → Option (List Chunk × AgentState)
  | [], _ => Option.none
  | r :: rest, st =>
    let res := processRound env st r
    if res.toolRequests.isEmpty then
      some (res.chunks ++ finalizeChunks env res.state, res.state)
    else
      let next := processTools env res.state res.toolRequests
      match runLoop env rest next.2 with
      | Option.none => Option.none
      | some (cs, st3) => some (res.chunks ++ next.1 ++ cs, st3)

/-- Lines 70-247: `ask_stream`.  The `simulate` short-circuit of lines 81-88
returns the canned chunks before any provider or executor interaction;
otherwise the round loop runs from the caller's messages. -/
def askStream (simulate : Bool) (env : Env) (messages : List Message)
    (rounds : List Round) : Option (List Chunk) :=
  if simulate then
    some (if env.streamMode then
            [Chunk.deltaContent "Simulated response.", Chunk.finishStop]
          else [Chunk.finalText "Simulated response."])
  else
    (runLoop env rounds
      { conversation := messages, answerParts := [], thinkingParts := [] }).map Prod.fst

/-! ## Helper lemmas: association-list dicts -/

lemma pyLookup_nil (k : String) : pyLookup [] k = Option.none := rfl

lemma pyLookup_cons (kv : String × PyVal) (l : List (String × PyVal)) (k : String) :
    pyLookup (kv :: l) k = if kv.1 == k then some kv.2 else pyLookup l k := by
  by_cases h : kv.1 == k <;> simp [pyLookup, List.find?, h]

lemma pyLookup_append (a b : List (String × PyVal)) (k : String) :
    pyLookup (a ++ b) k =
      match pyLookup a k with
      | some v => some v
      | Option.none => pyLookup b k := by
  induction a with
  | nil => simp [pyLookup]
  | cons kv a ih =>
    rw [List.cons_append, pyLookup_cons, pyLookup_cons]
    by_cases h : kv.1 == k
    · simp [h]
    · simp only [h, if_false, Bool.false_eq_true, ite_false, ih]

lemma pyLookup_map_override (a b : List (String × PyVal)) (k : String) :
    pyLookup (a.map (fun kv => (kv.1, (pyLookup b kv.1).getD kv.2))) k =
      (pyLookup a k).map (fun v => (pyLookup b k).getD v) := by
  induction a with
  | nil => simp [pyLookup]
  | cons kv a ih =>
    rw [List.map_cons, pyLookup_cons, pyLookup_cons]
    by_cases h : kv.1 == k
    · have hk : kv.1 = k := eq_of_beq h
      simp [h, hk]
    · simp only [h, if_false, Bool.false_eq_true, ite_false, ih]

lemma pyLookup_filter_of_not_mem (a b : List (String × PyVal)) (k : String)
    (h : pyLookup a k = Option.none) :
    pyLookup (b.filter (fun kv => (pyLookup a kv.1).isNone)) k = pyLookup b k := by
  induction b with
  | nil => simp
  | cons kv b ih =>
    rw [List.filter_cons]
    by_cases hk : kv.1 == k
    · have hk' : kv.1 = k := eq_of_beq hk
      have hpred : (pyLookup a kv.1).isNone = true := by rw [hk', h]; rfl
      rw [if_pos (by rw [hpred])]
      rw [pyLookup_cons, pyLookup_cons, if_pos hk, if_pos hk]
    · by_cases hp : (pyLookup a kv.1).isNone
      · rw [if_pos (by rw [hp])]
        rw [pyLookup_cons, pyLookup_cons, if_neg (by simp [hk]), if_neg (by simp [hk]), ih]
      · rw [if_neg (by simp [hp])]
        rw [ih, pyLookup_cons, if_neg (by simp [hk])]

/-- Lookup through a Python dict merge `\x7b**a, **b\x7d`: `b` wins where it
defines the key, otherwise `a` is consulted. -/
lemma pyLookup_dictUpdate (a b : List (String × PyVal)) (k : String) :
    pyLookup (dictUpdate a b) k =
      match pyLookup b k with
      | some v => some v
      | Option.none => pyLookup a k := by
  unfold dictUpdate
  rw [pyLookup_append, pyLookup_map_override]
  cases ha : pyLookup a k with
  | some v => cases pyLookup b k <;> simp
  | none =>
    rw [pyLookup_filter_of_not_mem a b k ha]
    cases pyLookup b k <;> simp

/-! ## Helper lemmas: SSE frames -/

lemma string_data_append (s t : String) : (s ++ t).data = s.data ++ t.data := by
  cases s; cases t; rfl

lemma pyDumps_dict (fs : List (String × PyVal)) :
    pyDumps (.dict fs) =
      "\x7b" ++ String.intercalate ", " (pyDumpsFields fs) ++ "\x7d" := by
  rw [pyDumps]

/-- A payload frame (a serialized dict) is never the literal `[DONE]` frame. -/
lemma frame_ne_done (fs : List (String × PyVal)) :
    "data: " ++ pyDumps (.dict fs) ++ "\n\n" ≠ "data: [DONE]\n\n" := by
  intro h
  have h2 := congrArg String.data h
  rw [pyDumps_dict] at h2
  simp only [string_data_append] at h2
  simp at h2

/-! ## Claim C5 -/

/-- Claim C5: for every input chunk sequence, the output of the streaming SSE
encoder `async_sse_chat_completions` ends with exactly one literal
`data: [DONE]\n\n` frame, and for an empty input that frame is the only
output. -/
theorem C5_done_terminal (base : List (String × PyVal)) (chunks : List PyVal) :
    (async_sse_chat_completions base chunks).getLast? = some "data: [DONE]\n\n" ∧
    List.count "data: [DONE]\n\n" (async_sse_chat_completions base chunks) = 1 ∧
    async_sse_chat_completions base [] = ["data: [DONE]\n\n"] := by
  refine ⟨?_, ?_, rfl⟩
  · exact List.getLast?_concat _
  · unfold async_sse_chat_completions
    rw [List.count_append]
    have hz : List.count "data: [DONE]\n\n"
        (chunks.map fun c => "data: " ++ pyDumps (.dict (chunkPayload base c)) ++ "\n\n") = 0 := by
      rw [List.count_eq_zero]
      intro hmem
      rcases List.mem_map.mp hmem with ⟨c, _, hc⟩
      exact frame_ne_done (chunkPayload base c) hc
    rw [hz]
    rfl

/-! ## Claim C6 -/

/-- Claim C6: a dict chunk already containing a `choices` key is forwarded
merged onto the shared envelope without rewrapping: its `choices` value and
every other key it defines are unchanged, and envelope fields are taken from
`base` only where the chunk does not define them. -/
theorem C6_choices_passthrough (base d : List (String × PyVal)) (v : PyVal)
    (h : pyLookup d "choices" = some v) :
    chunkPayload base (.dict d) = dictUpdate base d ∧
    pyLookup (chunkPayload base (.dict d)) "choices" = some v ∧
    (∀ k w, pyLookup d k = some w → pyLookup (chunkPayload base (.dict d)) k = some w) ∧
    (∀ k, pyLookup d k = Option.none →
      pyLookup (chunkPayload base (.dict d)) k = pyLookup base k) := by
  have hpass : chunkPayload base (.dict d) = dictUpdate base d := by
    have hs : (pyLookup d "choices").isSome = true := by rw [h]; rfl
    simp [chunkPayload, hs]
  refine ⟨hpass, ?_, ?_, ?_⟩
  · rw [hpass, pyLookup_dictUpdate, h]
  · intro k w hw
    rw [hpass, pyLookup_dictUpdate, hw]
  · intro k hk
    rw [hpass, pyLookup_dictUpdate, hk]

/-- Concrete instantiation of `C6_choices_passthrough`: a pre-shaped chunk
with its own `choices` and `model` keys passes through unchanged, while `id`
comes from the envelope. -/
theorem C6_choices_passthrough_witness :
    chunkPayload (basePayload "u" 5 "m") (.dict [("choices", .list []), ("model", .str "x")]) =
      dictUpdate (basePayload "u" 5 "m") [("choices", .list []), ("model", .str "x")] ∧
    pyLookup (chunkPayload (basePayload "u" 5 "m")
        (.dict [("choices", .list []), ("model", .str "x")])) "choices" = some (.list []) ∧
    (∀ k w, pyLookup [("choices", PyVal.list []), ("model", PyVal.str "x")] k = some w →
      pyLookup (chunkPayload (basePayload "u" 5 "m")
        (.dict [("choices", .list []), ("model", .str "x")])) k = some w) ∧
    (∀ k, pyLookup [("choices", PyVal.list []), ("model", PyVal.str "x")] k = Option.none →
      pyLookup (chunkPayload (basePayload "u" 5 "m")
        (.dict [("choices", .list []), ("model", .str "x")])) k =
        pyLookup (basePayload "u" 5 "m") k) :=
  C6_choices_passthrough (basePayload "u" 5 "m")
    [("choices", .list []), ("model", .str "x")] (.list []) rfl

/-! ## Concrete fixtures for witnesses and counterexamples -/

/-- A live-mode environment whose executor always answers `out!` and whose
`json.loads` always fails. -/
def envS : Env :=
  { streamMode := true, includeToolLogs := true,
    callTool := fun _ _ => "out!", jsonLoads := fun _ => Option.none }

/-- The collected-mode twin of `envS` (same provider events, same executor). -/
def envC : Env := { envS with streamMode := false }

/-- A live-mode environment whose executor returns the empty string. -/
def envEmptyTool : Env :=
  { streamMode := true, includeToolLogs := false,
    callTool := fun _ _ => "", jsonLoads := fun _ => Option.none }

/-- The empty starting state of one `ask_stream` call. -/
def st0 : AgentState := { conversation := [], answerParts := [], thinkingParts := [] }

/-- The spec's §8 example round: the provider streams one text block `4` and
no tool use. -/
def r4 : Round :=
  { events := [PEvent.blockStart 0 (some "text"),
      PEvent.blockDelta 0 { text := some "4", thinkingAttr := Option.none, dtype := some "text_delta" },
      PEvent.blockStop 0 (some { btype := some "text", id := "", name := "", argsJson := "", argsJsonIndent := "" })],
    finalContent := [{ btype := some "text", text := some "4" }] }

/-- A round with one thinking block and one text block (the shape of the
repository's own thinking test). -/
def rThink : Round :=
  { events := [PEvent.blockStart 0 (some "thinking"),
      PEvent.blockDelta 0 { text := some "inner thought", thinkingAttr := Option.none, dtype := some "thinking_delta" },
      PEvent.blockStop 0 Option.none,
      PEvent.blockStart 1 (some "text"),
      PEvent.blockDelta 1 { text := some "final answer", thinkingAttr := Option.none, dtype := some "text_delta" },
      PEvent.blockStop 1 Option.none],
    finalContent := [{ btype := some "text", text := some "final answer" }] }

/-- A finalized `tool_use` block named `echo`. -/
def toolBlk : StopBlock :=
  { btype := some "tool_use", id := "tool-1", name := "echo",
    argsJson := "ARGS", argsJsonIndent := "ARGSI" }

/-- A round whose stream finalizes exactly one tool-use block. -/
def rTool : Round :=
  { events := [PEvent.blockStop 0 (some toolBlk)], finalContent := [] }

/-- A finalized plain text block (its tool fields unused). -/
def toolBlkText : StopBlock :=
  { btype := some "text", id := "", name := "", argsJson := "", argsJsonIndent := "" }

/-! ## Claim C10 -/

/-- Claim C10: with `simulate=true`, `ask_stream`'s output is a fixed
constant — identical for any two message lists, any provider scripts and any
executors — namely the `Simulated response.` delta plus the stop marker in
stream mode, and the single `Simulated response.` string in collected mode.
Neither the provider script nor the executor is consulted. -/
theorem C10_simulate_constant (env env' : Env) (messages messages' : List Message)
    (rounds rounds' : List Round) (h : env.streamMode = env'.streamMode) :
    askStream true env messages rounds = askStream true env' messages' rounds' ∧
    askStream true env messages rounds =
      some (if env.streamMode then
              [Chunk.deltaContent "Simulated response.", Chunk.finishStop]
            else [Chunk.finalText "Simulated response."]) := by
  constructor
  · simp [askStream, h]
  · simp [askStream]

/-- Concrete instantiation of `C10_simulate_constant`: two different
environments, message lists and scripts give the same simulated output. -/
theorem C10_simulate_constant_witness :
    askStream true envS [] [] =
      askStream true { envS with callTool := fun _ _ => "other", jsonLoads := fun s => some (.str s) }
        [{ role := "user", content := .text "hi" }] [r4, rTool] ∧
    askStream true envS [] [] =
      some (if envS.streamMode then
              [Chunk.deltaContent "Simulated response.", Chunk.finishStop]
            else [Chunk.finalText "Simulated response."]) :=
  C10_simulate_constant envS
    { envS with callTool := fun _ _ => "other", jsonLoads := fun s => some (.str s) }
    [] [{ role := "user", content := .text "hi" }] [] [r4, rTool] rfl

/-! ## Claim C4 -/

/-- Claim C4 counterexample: in live mode a thinking-fragment delta does
carry the thinking text under the `content` key — the stream for `rThink`
contains `\x7b"delta": \x7b"thinking": "inner thought", "content": "inner
thought"\x7d\x7d`, whose `content` field is the thinking text, refuting the
claim that thinking text never appears there. -/
theorem C4_counterexample :
    askStream false envS [] [rThink] =
      some [Chunk.deltaContent "**Thoughts:**\n",
        Chunk.deltaThinking "inner thought" "inner thought",
        Chunk.deltaContent "\n\n---\n\n", Chunk.deltaContent "\n",
        Chunk.deltaContent "final answer", Chunk.deltaContent "\n",
        Chunk.finishStop] ∧
    Chunk.deltaThinking "inner thought" "inner thought" ∈
      [Chunk.deltaContent "**Thoughts:**\n",
        Chunk.deltaThinking "inner thought" "inner thought",
        Chunk.deltaContent "\n\n---\n\n", Chunk.deltaContent "\n",
        Chunk.deltaContent "final answer", Chunk.deltaContent "\n",
        Chunk.finishStop] ∧
    Chunk.contentField (Chunk.deltaThinking "inner thought" "inner thought") =
      some "inner thought" := by
  refine ⟨rfl, ?_, rfl⟩
  decide

/-- Claim C4 as amended: in live mode, a delta emitted for a thinking
fragment carries the fragment under the `thinking` key and mirrors the same
text under the `content` key (thinking is distinguishable by its `thinking`
key, not by the absence of `content`). -/
theorem C4_amended (env : Env) (acc : RoundAcc) (i : Nat) (d : DeltaPayload)
    (hs : env.streamMode = true) (ht : d.deltaText ≠ "")
    (hth : isThinkingDelta (btGet acc.blockTypes i) d = true) :
    (processEvent env acc (.blockDelta i d)).chunks =
      acc.chunks ++ [Chunk.deltaThinking d.deltaText d.deltaText] ∧
    Chunk.contentField (Chunk.deltaThinking d.deltaText d.deltaText) = some d.deltaText := by
  refine ⟨?_, rfl⟩
  simp [processEvent, hs, ht, hth]

/-- The `inner thought` thinking delta payload. -/
def dThink : DeltaPayload :=
  { text := some "inner thought", thinkingAttr := Option.none, dtype := some "thinking_delta" }

/-- An in-round accumulator that has seen a thinking block start at index 0. -/
def accThink : RoundAcc :=
  { blockTypes := [(0, some "thinking")], toolRequests := [], thinkingParts := [], chunks := [] }

/-- Concrete instantiation of `C4_amended` at the `inner thought` delta. -/
theorem C4_amended_witness :
    (processEvent envS accThink (.blockDelta 0 dThink)).chunks =
      accThink.chunks ++ [Chunk.deltaThinking dThink.deltaText dThink.deltaText] ∧
    Chunk.contentField (Chunk.deltaThinking dThink.deltaText dThink.deltaText) =
      some dThink.deltaText :=
  C4_amended envS accThink 0 dThink rfl (by decide) (by decide)

/-! ## Helper lemmas: the tool loop's accumulators -/

lemma foldl_processTool_results (env : Env) (reqs : List StopBlock) :
    ∀ acc : ToolAcc,
      (reqs.foldl (processTool env) acc).results = acc.results ++ reqs.map (mkToolResult env) := by
  induction reqs with
  | nil => intro acc; simp
  | cons b reqs ih =>
    intro acc
    rw [List.foldl_cons, ih, List.map_cons]
    simp [processTool]

lemma foldl_processTool_answerParts (env : Env) (reqs : List StopBlock) :
    ∀ acc : ToolAcc,
      (reqs.foldl (processTool env) acc).answerParts =
        acc.answerParts ++ reqs.flatMap (fun b =>
          if env.includeToolLogs then
            [callLogCollect b, resultLog b.name (env.callTool b.name b.argsJson)]
          else []) := by
  induction reqs with
  | nil => intro acc; simp
  | cons b reqs ih =>
    intro acc
    rw [List.foldl_cons, ih, List.flatMap_cons]
    by_cases h : env.includeToolLogs <;> simp [processTool, h]

/-- What `processTools` does to the state: appends exactly one user message
carrying the ordered batch of tool results, extends `answer_parts` with the
optional log entries, and leaves `thinking_parts` alone. -/
lemma processTools_snd (env : Env) (st : AgentState) (reqs : List StopBlock) :
    (processTools env st reqs).2 =
      { conversation := st.conversation ++ [userToolMsg (reqs.map (mkToolResult env))],
        answerParts := st.answerParts ++ reqs.flatMap (fun b =>
          if env.includeToolLogs then
            [callLogCollect b, resultLog b.name (env.callTool b.name b.argsJson)]
          else []),
        thinkingParts := st.thinkingParts } := by
  simp only [processTools]
  rw [foldl_processTool_results, foldl_processTool_answerParts]
  simp [userToolMsg]

/-! ## Claim C2 -/

/-- Claim C2 counterexample: when the executor returns the raw empty string,
the `tool_result` appended to the conversation does not carry that raw
string — its content is the fixed placeholder `No content returned by
tool.` — refuting "the raw string is never dropped or replaced, even when
it is empty". -/
theorem C2_counterexample :
    envEmptyTool.callTool "echo" "ARGS" = "" ∧
    (processTools envEmptyTool st0 [toolBlk]).2.conversation =
      [userToolMsg [{ tool_use_id := "tool-1", content := "No content returned by tool." }]] ∧
    "No content returned by tool." ≠ "" := by
  refine ⟨rfl, rfl, ?_⟩
  decide

/-- Claim C2 as amended: the `tool_result` appended for each invocation has
content equal to the executor's raw string whenever that string is
non-empty (even when it parses as JSON); an empty raw string is replaced by
the placeholder `No content returned by tool.`.  The whole ordered batch is
appended as one user message. -/
theorem C2_amended (env : Env) (st : AgentState) (reqs : List StopBlock) :
    (processTools env st reqs).2.conversation =
      st.conversation ++ [userToolMsg (reqs.map (mkToolResult env))] ∧
    reqs.map (fun b => (mkToolResult env b).content) =
      reqs.map (fun b =>
        if env.callTool b.name b.argsJson = "" then "No content returned by tool."
        else env.callTool b.name b.argsJson) := by
  constructor
  · rw [processTools_snd]
  · simp [mkToolResult, toolResultContent]

/-! ## Helper lemmas: tool requests captured by the event loop -/

/-- The tool-use blocks finalized by a round's stream, in stream order. -/
def toolUseStops (events : List PEvent) : List StopBlock :=
  events.filterMap (fun e =>
    match e with
    | .blockStop _ (some b) => if b.btype == some "tool_use" then some b else Option.none
    | _ => Option.none)

lemma processEvent_toolRequests (env : Env) (acc : RoundAcc) (e : PEvent) :
    (processEvent env acc e).toolRequests =
      acc.toolRequests ++ (match e with
        | PEvent.blockStop _ (some b) => if b.btype == some "tool_use" then [b] else []
        | _ => []) := by
  cases e with
  | blockStart i bt => simp [processEvent]
  | blockDelta i d =>
    simp only [processEvent]
    by_cases h1 : d.deltaText = ""
    · simp [h1]
    · by_cases h2 : isThinkingDelta (btGet acc.blockTypes i) d <;> simp [h1, h2]
  | blockStop i cb =>
    cases cb with
    | none => simp [processEvent]
    | some b => by_cases hb : b.btype = some "tool_use" <;> simp [processEvent, hb]
  | otherEvent => simp [processEvent]

lemma foldl_processEvent_toolRequests (env : Env) (events : List PEvent) :
    ∀ acc : RoundAcc,
      (events.foldl (processEvent env) acc).toolRequests =
        acc.toolRequests ++ toolUseStops events := by
  induction events with
  | nil => intro acc; simp [toolUseStops]
  | cons e events ih =>
    intro acc
    have hsplit : toolUseStops (e :: events) =
        (match e with
          | PEvent.blockStop _ (some b) => if b.btype == some "tool_use" then [b] else []
          | _ => []) ++ toolUseStops events := by
      cases e with
      | blockStop i cb =>
        cases cb with
        | none => simp [toolUseStops, List.filterMap_cons]
        | some b =>
          by_cases hb : b.btype = some "tool_use" <;>
            simp [toolUseStops, List.filterMap_cons, hb]
      | blockStart i bt => simp [toolUseStops, List.filterMap_cons]
      | blockDelta i d => simp [toolUseStops, List.filterMap_cons]
      | otherEvent => simp [toolUseStops, List.filterMap_cons]
    rw [List.foldl_cons, ih, processEvent_toolRequests, hsplit, List.append_assoc]

/-- A round's finalized tool requests are exactly the stream's tool-use stop
blocks, in stream order. -/
lemma processRound_toolRequests (env : Env) (st : AgentState) (r : Round) :
    (processRound env st r).toolRequests = toolUseStops r.events := by
  simp only [processRound]
  rw [foldl_processEvent_toolRequests]
  simp

/-! ## Claim C3 -/

/-- Claim C3: a round's finalized tool requests are the stream's tool-use
stop blocks in order, and the coordinator appends exactly one user message
whose content is the full ordered batch of tool results, one per request. -/
theorem C3_single_user_message (env : Env) (st : AgentState) (r : Round)
    (h : (processRound env st r).toolRequests ≠ []) :
    (processRound env st r).toolRequests = toolUseStops r.events ∧
    (processTools env (processRound env st r).state
        (processRound env st r).toolRequests).2.conversation =
      (processRound env st r).state.conversation ++
        [userToolMsg ((processRound env st r).toolRequests.map (mkToolResult env))] := by
  refine ⟨processRound_toolRequests env st r, ?_⟩
  rw [processTools_snd]

/-- Concrete instantiation of `C3_single_user_message` on the one-tool
round `rTool`. -/
theorem C3_single_user_message_witness :
    (processRound envS st0 rTool).toolRequests = toolUseStops rTool.events ∧
    (processTools envS (processRound envS st0 rTool).state
        (processRound envS st0 rTool).toolRequests).2.conversation =
      (processRound envS st0 rTool).state.conversation ++
        [userToolMsg ((processRound envS st0 rTool).toolRequests.map (mkToolResult envS))] :=
  C3_single_user_message envS st0 rTool (by decide)

/-! ## Claim C7 -/

/-- Claim C7: the round loop reaches its terminal state exactly when a round
yields zero finalized tool requests — a tool-free round finalizes without
consuming further provider rounds, a round with tool requests always starts
another provider round, and a script all of whose rounds request tools is
never finished by the loop itself (no built-in round bound). -/
theorem C7_loop_structure (env : Env) :
    (∀ r rest st, (processRound env st r).toolRequests = [] →
      runLoop env (r :: rest) st =
        some ((processRound env st r).chunks ++
            finalizeChunks env (processRound env st r).state,
          (processRound env st r).state)) ∧
    (∀ r rest st, (processRound env st r).toolRequests ≠ [] →
      runLoop env (r :: rest) st =
        (runLoop env rest (processTools env (processRound env st r).state
            (processRound env st r).toolRequests).2).map (fun p =>
          ((processRound env st r).chunks ++
            (processTools env (processRound env st r).state
              (processRound env st r).toolRequests).1 ++ p.1, p.2))) ∧
    (∀ rounds st, (∀ st' r, r ∈ rounds → (processRound env st' r).toolRequests ≠ []) →
      runLoop env rounds st = Option.none) := by
  refine ⟨?_, ?_, ?_⟩
  · intro r rest st h
    simp only [runLoop]
    simp [h]
  · intro r rest st h
    have he : (processRound env st r).toolRequests.isEmpty = false := by
      cases hq : (processRound env st r).toolRequests with
      | nil => exact absurd hq h
      | cons a l => rfl
    simp only [runLoop]
    simp only [he, Bool.false_eq_true, if_false]
    cases runLoop env rest (processTools env (processRound env st r).state
        (processRound env st r).toolRequests).2 with
    | none => rfl
    | some p => cases p; rfl
  · intro rounds
    induction rounds with
    | nil => intro st _; rfl
    | cons r rest ih =>
      intro st h
      have hr : (processRound env st r).toolRequests ≠ [] :=
        h st r (List.mem_cons_self r rest)
      have he : (processRound env st r).toolRequests.isEmpty = false := by
        cases hq : (processRound env st r).toolRequests with
        | nil => exact absurd hq hr
        | cons a l => rfl
      simp only [runLoop]
      simp only [he, Bool.false_eq_true, if_false]
      rw [ih _ (fun st' r' hm => h st' r' (List.mem_cons_of_mem r hm))]

/-- Concrete instantiation of `C7_loop_structure`: the tool-free round `r4`
terminates the loop, and the all-tools script `[rTool]` is never finished by
the loop itself. -/
theorem C7_loop_structure_witness :
    runLoop envS [r4] st0 =
      some ((processRound envS st0 r4).chunks ++
          finalizeChunks envS (processRound envS st0 r4).state,
        (processRound envS st0 r4).state) ∧
    runLoop envS [rTool] st0 = Option.none := by
  constructor
  · exact (C7_loop_structure envS).1 r4 [] st0 (by decide)
  · refine (C7_loop_structure envS).2.2 [rTool] st0 ?_
    intro st' r hm
    have hr : r = rTool := by simpa using hm
    subst hr
    rw [processRound_toolRequests]
    decide

/-! ## Helper lemmas: collected mode yields no intermediate chunks -/

lemma processEvent_chunks_collected (env : Env) (hs : env.streamMode = false)
    (acc : RoundAcc) (e : PEvent) : (processEvent env acc e).chunks = acc.chunks := by
  cases e with
  | blockStart i bt => simp [processEvent, hs]
  | blockDelta i d =>
    simp only [processEvent]
    by_cases h1 : d.deltaText = ""
    · simp [h1]
    · by_cases h2 : isThinkingDelta (btGet acc.blockTypes i) d <;> simp [h1, h2, hs]
  | blockStop i cb =>
    cases cb with
    | none => simp [processEvent, hs]
    | some b => by_cases hb : b.btype = some "tool_use" <;> simp [processEvent, hs, hb]
  | otherEvent => simp [processEvent]

lemma foldl_processEvent_chunks_collected (env : Env) (hs : env.streamMode = false)
    (events : List PEvent) :
    ∀ acc : RoundAcc, (events.foldl (processEvent env) acc).chunks = acc.chunks := by
  induction events with
  | nil => intro acc; rfl
  | cons e events ih =>
    intro acc
    rw [List.foldl_cons, ih, processEvent_chunks_collected env hs]

lemma processRound_chunks_collected (env : Env) (hs : env.streamMode = false)
    (st : AgentState) (r : Round) : (processRound env st r).chunks = [] := by
  simp only [processRound]
  rw [foldl_processEvent_chunks_collected env hs]

lemma foldl_processTool_chunks_collected (env : Env) (hs : env.streamMode = false)
    (reqs : List StopBlock) :
    ∀ acc : ToolAcc, (reqs.foldl (processTool env) acc).chunks = acc.chunks := by
  induction reqs with
  | nil => intro acc; rfl
  | cons b reqs ih =>
    intro acc
    rw [List.foldl_cons, ih]
    simp [processTool, hs]

lemma processTools_chunks_collected (env : Env) (hs : env.streamMode = false)
    (st : AgentState) (reqs : List StopBlock) : (processTools env st reqs).1 = [] := by
  simp only [processTools]
  rw [foldl_processTool_chunks_collected env hs]

/-! ## Claim C8 -/

/-- Claim C8: in collected mode a finished loop emits exactly one composite
value; when any thinking text was captured, that value is the stripped
composition of the labeled `Thoughts` section with the joined thinking
fragments, the fixed `---` separator, the `Answer` label, and the non-empty
answer fragments joined by blank lines. -/
theorem C8_collected_single (env : Env) (rounds : List Round) (st : AgentState)
    (cs : List Chunk) (fin : AgentState) (hs : env.streamMode = false)
    (hr : runLoop env rounds st = some (cs, fin)) :
    cs = [Chunk.finalText (finalAnswer fin)] ∧
    (fin.thinkingParts ≠ [] →
      finalAnswer fin = pyStrip (String.intercalate "\n\n"
        (thoughtsHeader fin.thinkingParts :: fin.answerParts.filter (fun p => p != "")))) := by
  constructor
  · induction rounds generalizing st cs with
    | nil => simp [runLoop] at hr
    | cons r rest ih =>
      simp only [runLoop] at hr
      by_cases he : (processRound env st r).toolRequests.isEmpty
      · rw [if_pos he] at hr
        have h := Option.some.inj hr
        have h1 := congrArg Prod.fst h
        have h2 := congrArg Prod.snd h
        simp only at h1 h2
        rw [← h1, processRound_chunks_collected env hs, List.nil_append, h2]
        simp [finalizeChunks, hs]
      · rw [if_neg he] at hr
        cases hrl : runLoop env rest (processTools env (processRound env st r).state
            (processRound env st r).toolRequests).2 with
        | none => rw [hrl] at hr; exact absurd hr (by simp)
        | some p =>
          obtain ⟨cs2, fin2⟩ := p
          rw [hrl] at hr
          simp only at hr
          have h := Option.some.inj hr
          have h1 := congrArg Prod.fst h
          have h2 := congrArg Prod.snd h
          simp only at h1 h2
          rw [← h1, processRound_chunks_collected env hs,
            processTools_chunks_collected env hs]
          simp only [List.nil_append]
          exact ih _ _ (h2 ▸ hrl)
  · intro hne
    have : fin.thinkingParts.isEmpty = false := by
      cases hq : fin.thinkingParts with
      | nil => exact absurd hq hne
      | cons a l => rfl
    simp [finalAnswer, this]

/-- The assistant message of line 167 carrying a round's final blocks. -/
def asstMsg (bs : List MsgBlock) : Message :=
  { role := "assistant", content := MsgContent.blocks bs }

/-- The final state of the collected-mode run of `rThink`. -/
def finThink : AgentState :=
  { conversation := [asstMsg [{ btype := some "text", text := some "final answer" }]],
    answerParts := ["final answer"],
    thinkingParts := ["inner thought"] }

/-- Concrete instantiation of `C8_collected_single` on the collected-mode
run of the thinking round `rThink`. -/
theorem C8_collected_single_witness :
    [Chunk.finalText "**Thoughts:**\n\ninner thought\n\n---\n\n**Answer:**\n\n\n\nfinal answer"] =
      [Chunk.finalText (finalAnswer finThink)] ∧
    (finThink.thinkingParts ≠ [] →
      finalAnswer finThink = pyStrip (String.intercalate "\n\n"
        (thoughtsHeader finThink.thinkingParts ::
          finThink.answerParts.filter (fun p => p != "")))) :=
  C8_collected_single envC [rThink] st0
    [Chunk.finalText "**Thoughts:**\n\ninner thought\n\n---\n\n**Answer:**\n\n\n\nfinal answer"]
    finThink rfl (by rfl)

/-! ## Claim C9 -/

/-- Claim C9 counterexample: the empty executor output is not parseable as
JSON, yet what is fed back to the conversation is the placeholder, not the
raw string unchanged — refuting "the raw string is retained and fed back to
the conversation unchanged" for every non-parseable output. -/
theorem C9_counterexample :
    envEmptyTool.jsonLoads (envEmptyTool.callTool "echo" "ARGS") = Option.none ∧
    (processTools envEmptyTool st0 [toolBlk]).2.conversation =
      [userToolMsg [{ tool_use_id := "tool-1", content := "No content returned by tool." }]] ∧
    (mkToolResult envEmptyTool toolBlk).content ≠ envEmptyTool.callTool "echo" "ARGS" := by
  refine ⟨rfl, rfl, ?_⟩
  decide

/-- Claim C9 as amended: a non-parseable, non-empty tool output never aborts
the round — the resulting state is the same whatever `json.loads` does (the
parse is for rendering only), the round still appends its single batched
user message, and that batch carries the raw string unchanged for the
non-empty output. -/
theorem C9_amended (env : Env) (g : String → Option ParsedJson) (st : AgentState)
    (reqs : List StopBlock) (b : StopBlock) (hb : b ∈ reqs)
    (hne : env.callTool b.name b.argsJson ≠ "")
    (hp : env.jsonLoads (env.callTool b.name b.argsJson) = Option.none) :
    (processTools { env with jsonLoads := g } st reqs).2 = (processTools env st reqs).2 ∧
    (processTools env st reqs).2.conversation =
      st.conversation ++ [userToolMsg (reqs.map (mkToolResult env))] ∧
    mkToolResult env b ∈ reqs.map (mkToolResult env) ∧
    (mkToolResult env b).content = env.callTool b.name b.argsJson := by
  refine ⟨?_, ?_, ?_, ?_⟩
  · have hfun : mkToolResult { env with jsonLoads := g } = mkToolResult env :=
      funext (fun _ => rfl)
    rw [processTools_snd, processTools_snd, hfun]
  · rw [processTools_snd]
  · exact List.mem_map_of_mem _ hb
  · simp [mkToolResult, toolResultContent, hne]

/-- Concrete instantiation of `C9_amended`: the `out!` output fails to
parse, is fed back unchanged, and the state ignores the parser. -/
theorem C9_amended_witness :
    (processTools { envS with jsonLoads := fun _ => some (.str "zzz") } st0 [toolBlk]).2 =
      (processTools envS st0 [toolBlk]).2 ∧
    (processTools envS st0 [toolBlk]).2.conversation =
      st0.conversation ++ [userToolMsg ([toolBlk].map (mkToolResult envS))] ∧
    mkToolResult envS toolBlk ∈ [toolBlk].map (mkToolResult envS) ∧
    (mkToolResult envS toolBlk).content = envS.callTool toolBlk.name toolBlk.argsJson :=
  C9_amended envS (fun _ => some (.str "zzz")) st0 [toolBlk] toolBlk
    (by decide) (by decide) rfl

/-! ## Helper lemmas: joining and stripping strings -/

lemma string_join_foldl (ts : List String) :
    ∀ s : String, ts.foldl (· ++ ·) s = s ++ String.join ts := by
  induction ts with
  | nil => intro s; simp [String.join]
  | cons t ts ih =>
    intro s
    rw [List.foldl_cons, ih]
    have hj : String.join (t :: ts) = t ++ String.join ts := by
      show List.foldl (· ++ ·) "" (t :: ts) = _
      rw [List.foldl_cons, ih, String.empty_append]
    rw [hj, String.append_assoc]

lemma string_join_cons (t : String) (ts : List String) :
    String.join (t :: ts) = t ++ String.join ts := by
  show List.foldl (· ++ ·) "" (t :: ts) = _
  rw [List.foldl_cons, string_join_foldl, String.empty_append]

lemma string_join_append (a b : List String) :
    String.join (a ++ b) = String.join a ++ String.join b := by
  show List.foldl (· ++ ·) "" (a ++ b) = _
  rw [List.foldl_append, string_join_foldl]
  rfl

/-- Dropping the falsy fragments does not change the concatenation. -/
lemma string_join_filter (ts : List String) :
    String.join (ts.filter (fun t => t != "")) = String.join ts := by
  induction ts with
  | nil => rfl
  | cons t ts ih =>
    rw [List.filter_cons]
    by_cases h : t = ""
    · simp only [h]
      rw [if_neg (by decide)]
      rw [ih, string_join_cons, String.empty_append]
    · rw [if_pos (by simp [h]), string_join_cons, string_join_cons, ih]

lemma stripList_append_ws (l : List Char) (c : Char) (hc : isPyWhitespace c = true) :
    stripList (l ++ [c]) = stripList l := by
  unfold stripList
  rw [List.dropWhile_append]
  by_cases he : (List.dropWhile isPyWhitespace l).isEmpty
  · rw [if_pos he]
    have h1 : List.dropWhile isPyWhitespace [c] = [] := by
      simp [List.dropWhile_cons, hc]
    have h2 : List.dropWhile isPyWhitespace l = [] := by
      cases hq : List.dropWhile isPyWhitespace l with
      | nil => rfl
      | cons a as => rw [hq] at he; simp at he
    rw [h1, h2]
  · rw [if_neg he]
    rw [List.reverse_append]
    simp only [List.reverse_cons, List.reverse_nil, List.nil_append, List.singleton_append]
    rw [List.dropWhile_cons, if_pos (by rw [hc])]

/-- Python `.strip()` absorbs a trailing newline. -/
lemma pyStrip_append_newline (s : String) : pyStrip (s ++ "\n") = pyStrip s := by
  unfold pyStrip
  rw [string_data_append]
  have h : ("\n").data = ['\n'] := rfl
  rw [h, stripList_append_ws _ _ (by decide)]

/-! ## The single-text-block round used to relate the two modes -/

/-- A streamed text delta at block index 0. -/
def mkTextDelta (t : String) : PEvent :=
  .blockDelta 0 { text := some t, thinkingAttr := Option.none, dtype := some "text_delta" }

/-- A round streaming exactly one text block: start, the given delta texts,
stop; the final message carries the block with the concatenated text. -/
def textRound (ts : List String) (blk : StopBlock) : Round :=
  { events := PEvent.blockStart 0 (some "text") ::
      (ts.map mkTextDelta ++ [PEvent.blockStop 0 (some blk)]),
    finalContent := [{ btype := some "text", text := some (String.join ts) }] }

/-- The live chunk sequence `ask_stream` emits for a single-text-block
round: one content delta per non-empty fragment, the block-stop newline,
and the terminal marker. -/
def liveChunks (ts : List String) : List Chunk :=
  (ts.filter (fun t => t != "")).map Chunk.deltaContent ++
    [Chunk.deltaContent "\n", Chunk.finishStop]

lemma processEvent_textDelta (env : Env) (acc : RoundAcc) (t : String)
    (hbt : btGet acc.blockTypes 0 = some "text") :
    processEvent env acc (mkTextDelta t) =
      { acc with chunks := acc.chunks ++
          (if env.streamMode then (if t = "" then [] else [Chunk.deltaContent t]) else []) } := by
  have hdt : (DeltaPayload.mk (some t) Option.none (some "text_delta")).deltaText = t := by
    by_cases h : t = "" <;> simp [DeltaPayload.deltaText, h]
  have hth : isThinkingDelta (btGet acc.blockTypes 0)
      (DeltaPayload.mk (some t) Option.none (some "text_delta")) = false := by
    rw [hbt]; rfl
  simp only [processEvent, mkTextDelta, hdt, hth]
  by_cases h : t = ""
  · simp [h]
  · simp only [h, if_false, Bool.false_eq_true, ite_false]

lemma foldl_textDeltas (env : Env) (ts : List String) :
    ∀ acc : RoundAcc, btGet acc.blockTypes 0 = some "text" →
      (ts.map mkTextDelta).foldl (processEvent env) acc =
        { acc with chunks := acc.chunks ++
            (if env.streamMode then
              (ts.filter (fun t => t != "")).map Chunk.deltaContent
            else []) } := by
  induction ts with
  | nil => intro acc hbt; simp
  | cons t ts ih =>
    intro acc hbt
    rw [List.map_cons, List.foldl_cons, processEvent_textDelta env acc t hbt]
    have hstep := ih { acc with chunks := acc.chunks ++
      (if env.streamMode then (if t = "" then [] else [Chunk.deltaContent t]) else []) } hbt
    rw [hstep]
    rw [List.filter_cons]
    by_cases hs : env.streamMode
    · by_cases h : t = ""
      · simp [hs, h]
      · simp [hs, h]
    · simp [hs]

/-- Full evaluation of a single-text-block round. -/
lemma processRound_textRound (env : Env) (st : AgentState) (ts : List String)
    (blk : StopBlock) (hb : blk.btype = some "text") :
    processRound env st (textRound ts blk) =
      { chunks := (if env.streamMode then
            (ts.filter (fun t => t != "")).map Chunk.deltaContent ++ [Chunk.deltaContent "\n"]
          else []),
        toolRequests := [],
        state := { conversation := st.conversation ++ [asstMsg (textRound ts blk).finalContent],
                   answerParts := st.answerParts ++
                     (if String.join ts = "" then [] else [String.join ts]),
                   thinkingParts := st.thinkingParts } } := by
  simp only [processRound, textRound, List.foldl_cons, List.foldl_append]
  have hstart : processEvent env
      { blockTypes := [], toolRequests := [], thinkingParts := st.thinkingParts, chunks := [] }
      (PEvent.blockStart 0 (some "text")) =
      { blockTypes := [(0, some "text")], toolRequests := [],
        thinkingParts := st.thinkingParts, chunks := [] } := by
    simp [processEvent, btSet, btGet]
  rw [hstart]
  rw [foldl_textDeltas env ts _ (by rfl)]
  have hstop : ∀ cs : List Chunk,
      processEvent env
        { blockTypes := [(0, some "text")], toolRequests := [],
          thinkingParts := st.thinkingParts, chunks := cs }
        (PEvent.blockStop 0 (some blk)) =
      { blockTypes := [(0, some "text")], toolRequests := [],
        thinkingParts := st.thinkingParts,
        chunks := cs ++ (if env.streamMode then [Chunk.deltaContent "\n"] else []) } := by
    intro cs
    have hbne : (blk.btype == some "tool_use") = false := by
      rw [hb]; rfl
    simp only [processEvent, hbne, Bool.false_eq_true, if_false]
    have hg : btGet [(0, some "text")] 0 = some "text" := rfl
    rw [hg]
    by_cases hs : env.streamMode <;> simp [hs]
  rw [hstop]
  have hat : answerTexts [{ btype := some "text", text := some (String.join ts) }] =
      (if String.join ts = "" then [] else [String.join ts]) := by
    by_cases h : String.join ts = "" <;> simp [answerTexts, h]
  have htt : thinkingTexts [{ btype := some "text", text := some (String.join ts) }] = [] := by
    simp [thinkingTexts]
  rw [hat, htt]
  by_cases hs : env.streamMode <;> simp [hs, asstMsg, textRound]

lemma filterMap_contentField_deltaContent (l : List String) :
    List.filterMap Chunk.contentField (l.map Chunk.deltaContent) = l := by
  induction l with
  | nil => rfl
  | cons t l ih => simp [Chunk.contentField, ih]

/-- The concatenation of the content fields of the live chunks of a
single-text-block round: the fragments plus the block-stop newline. -/
lemma liveChunks_contents (ts : List String) :
    String.join ((liveChunks ts).filterMap Chunk.contentField) = String.join ts ++ "\n" := by
  unfold liveChunks
  rw [List.filterMap_append, filterMap_contentField_deltaContent]
  have h2 : List.filterMap Chunk.contentField [Chunk.deltaContent "\n", Chunk.finishStop] =
      ["\n"] := rfl
  rw [h2, string_join_append, string_join_filter]
  rfl

/-! ## Claim C1 -/

/-- Claim C1 counterexample: the spec's own §8 example (one text block `4`,
no tool use).  The collected output is `4`, yet the live run emits the
content deltas `4` and `\n` (the block-stop newline), whose in-order
concatenation is `4\n` — so the collected output does not equal the
concatenation of the content-bearing live deltas. -/
theorem C1_counterexample :
    askStream false envC [] [r4] = some [Chunk.finalText "4"] ∧
    askStream false envS [] [r4] =
      some [Chunk.deltaContent "4", Chunk.deltaContent "\n", Chunk.finishStop] ∧
    String.join (List.filterMap Chunk.contentField
      [Chunk.deltaContent "4", Chunk.deltaContent "\n", Chunk.finishStop]) = "4\n" ∧
    ("4" : String) ≠ "4\n" := by
  refine ⟨rfl, rfl, rfl, ?_⟩
  decide

/-- Claim C1 as amended: for an interaction without tool use and without
thinking, in which one round streams the deltas of a single text block whose
final text is the concatenation of the streamed fragments, the collected
output equals the in-order concatenation of the content-bearing live deltas
trimmed of surrounding whitespace (the live stream additionally ends the
block with a newline delta, which the trim removes). -/
theorem C1_amended (env : Env) (messages : List Message) (ts : List String)
    (blk : StopBlock) (hb : blk.btype = some "text") (hs : env.streamMode = true) :
    askStream false env messages [textRound ts blk] = some (liveChunks ts) ∧
    askStream false { env with streamMode := false } messages [textRound ts blk] =
      some [Chunk.finalText
        (pyStrip (String.join ((liveChunks ts).filterMap Chunk.contentField)))] := by
  constructor
  · simp only [askStream, Bool.false_eq_true, if_false, runLoop]
    rw [processRound_textRound env _ ts blk hb]
    simp only [hs, if_true, List.isEmpty_nil, ite_true, finalizeChunks, Option.map_some]
    unfold liveChunks
    simp [List.append_assoc]
  · simp only [askStream, Bool.false_eq_true, if_false, runLoop]
    rw [processRound_textRound { env with streamMode := false } _ ts blk hb]
    simp only [List.isEmpty_nil, ite_true, finalizeChunks, Option.map_some]
    rw [liveChunks_contents, pyStrip_append_newline]
    simp only [if_false, Bool.false_eq_true, ite_false]
    have hfa : finalAnswer
        { conversation := messages ++ [asstMsg (textRound ts blk).finalContent],
          answerParts := [] ++ (if String.join ts = "" then [] else [String.join ts]),
          thinkingParts := [] } = pyStrip (String.join ts) := by
      by_cases h : String.join ts = ""
      · rw [h]; rfl
      · simp only [finalAnswer, h, if_false, Bool.false_eq_true, ite_false, List.nil_append]
        have hfilter : List.filter (fun p => p != "") [String.join ts] = [String.join ts] := by
          simp [h]
        rw [hfilter]
        rfl
    rw [hfa]
    simp

/-- Concrete instantiation of `C1_amended` on the §8 example fragments. -/
theorem C1_amended_witness :
    askStream false envS [] [textRound ["4"] toolBlkText] = some (liveChunks ["4"]) ∧
    askStream false { envS with streamMode := false } [] [textRound ["4"] toolBlkText] =
      some [Chunk.finalText
        (pyStrip (String.join ((liveChunks ["4"]).filterMap Chunk.contentField)))] :=
  C1_amended envS [] ["4"] toolBlkText rfl rfl

end BaseAgent
